/-
Verification of the dynamic decoding loop of NJUNMT-tf
(`njunmt/decoders/decoder.py`).

The embedding models the graph-construction `tf.while_loop` of
`dynamic_decode` as an eager loop over an explicit loop-variable record.
Batched tensors with a leading lane dimension (batch x beam) are modelled
as Lean lists indexed by lane; the decoder state, decoder input vectors,
per-field output values, merged top features and logits are opaque type
parameters, since the loop driver treats them opaquely.  `tf.TensorArray`
is modelled as a write log (list of (index, value) pairs) whose `stack`
operation succeeds exactly when every index 0..n-1 was written exactly
once, matching TensorArray semantics.  Log-probabilities (float32 in the
source) are modelled as rationals: the driver only creates zeros and
threads the feedback policy's values through, so no floating-point
behaviour of the driver itself is involved.
-/
import Mathlib

set_option linter.unusedSectionVars false
set_option linter.unusedVariables false

namespace NJUNMT

/-- Execution modes (`njunmt.utils.global_names.ModeKeys`): the decoder
branches only on whether the mode is INFER. -/
inductive ModeKeys where
  | TRAIN
  | EVAL
  | INFER
deriving DecidableEq

/-- A `tf.TensorArray` with `dynamic_size=True`, modelled as the log of
`write(index, value)` calls in call order. -/
abbrev TArr (α : Type) : Type := List (Nat × α)

/-- `TensorArray.write(time, value)`: appends to the write log. -/
def ta_write {α : Type} (ta : TArr α) (time : Nat) (v : α) : TArr α :=
  ta ++ [(time, v)]

/-- The empty TensorArray (`size=0, dynamic_size=True`). -/
def ta_empty {α : Type} : TArr α := []

/-- Explicit option traversal of a list (all-or-nothing). -/
def map_option {α β : Type} (g : α → Option β) : List α → Option (List β)
  | [] => some []
  | x :: xs =>
    match g x, map_option g xs with
    | some y, some ys => some (y :: ys)
    | _, _ => none

/-- `TensorArray.stack()`: succeeds iff each index `0..n-1` (where `n` is
the number of writes) was written exactly once, and returns the values in
index order.  A double write or a gap makes the stacked result undefined
(`none`), which is how TensorFlow's error on such programs is modelled. -/
def ta_stack {α : Type} (ta : TArr α) : Option (List α) :=
  map_option (fun i =>
    match ta.filter (fun p => p.1 = i) with
    | [p] => some p.2
    | _ => none) (List.range ta.length)

/-- Modelled from the spec: `gather_states` from `njunmt/utils/beam_search.py`
(imported by decoder.py, file not in src).  Per spec §4.2 it applies
`beam_ids` as a gather over the lane dimension of every carried tensor:
lane `i` of the result is lane `beam_ids[i]` of the argument. -/
def gather_states {α : Type} [Inhabited α] (xs : List α) (ids : List Nat) : List α :=
  ids.map (fun i => xs.getD i default)

/-- Modelled from the spec: `stack_beam_size` from
`njunmt/utils/beam_search.py` (file not in src).  Per spec §4.1 step 2 it
replicates each batch lane across `beam_size` beam lanes, flattening into
one leading batch x beam dimension. -/
def stack_beam_size {α : Type} (xs : List α) (beam : Nat) : List α :=
  xs.flatMap (fun x => List.replicate beam x)

/-- Modelled from the spec: the field-name part of `DecoderOutputRemover`
from `njunmt/utils/expert_utils.py` (file not in src).  Per spec §4.3 and
the docstring of `Decoder.output_ignore_fields`, the ignore-list is
applied during inference only (memory saving at inference); in TRAIN/EVAL
mode, or with no ignore-list, every declared field is retained. -/
def remover_retained (mode : ModeKeys) (fields : List String)
    (ignore : Option (List String)) : List String :=
  match mode, ignore with
  | ModeKeys.INFER, some ig => fields.filter (fun f => ¬ f ∈ ig)
  | _, _ => fields

/-- Modelled from the spec: `DecoderOutputRemover.apply` from
`njunmt/utils/expert_utils.py` (file not in src), acting on a named-field
record (here an association list in schema order): drops the ignored
fields during inference, identity otherwise. -/
def remover_apply {W : Type} (mode : ModeKeys) (ignore : Option (List String))
    (r : List (String × W)) : List (String × W) :=
  match mode, ignore with
  | ModeKeys.INFER, some ig => r.filter (fun p => ¬ p.1 ∈ ig)
  | _, _ => r

/-- `BeamSearchStateSpec` (from `njunmt/utils/beam_search.py`, shape per
decoder.py lines 308-312): the per-step beam-search status record. -/
structure BeamSearchStateSpec : Type where
  log_probs : List ℚ
  predicted_ids : List Nat
  beam_ids : List Nat
  lengths : List Nat
deriving DecidableEq

/-- The `infer_status_ta` structure: one TensorArray per
`BeamSearchStateSpec` field (decoder.py line 334: `nest.map_structure`
over `BeamSearchStateSpec.dtypes()`). -/
structure InferStatusTA : Type where
  log_probs : TArr (List ℚ)
  predicted_ids : TArr (List Nat)
  beam_ids : TArr (List Nat)
  lengths : TArr (List Nat)
deriving DecidableEq

/-- The target `Modality` interface as used by decoder.py:
`targets_bottom` embeds a batch of symbols at a time position
(`_embed_words`), `top` projects merged top features to logits
(`_compute_logits`). -/
structure Modality (I F L : Type) : Type where
  targets_bottom : List Nat → Nat → List I
  top : F → L

/-- The `Feedback` (helper) interface as used by decoder.py:
`init_symbols` yields the initial finished mask and start symbols (one
per lane, batch x beam at inference); `sample_symbols` yields
`(sample_ids, beam_ids, next_log_probs, next_lengths)`; `next_symbols`
yields the next finished mask and input symbols (`sample_ids` is `None`
outside inference). -/
structure Feedback (L : Type) : Type where
  beam_size : Nat
  init_symbols : List Bool × List Nat
  sample_symbols : L → List ℚ → List Bool → List Nat → Nat →
    List Nat × List Nat × List ℚ × List Nat
  next_symbols : Nat → Option (List Nat) → List Bool × List Nat

/-- The `Decoder` interface as used by `dynamic_decode`: the declared
output schema (`output_dtype._fields`), the optional ignore-list, the
`prepare`/`step`/`merge_top_features` transition contract and the
input pre/post-processing hooks.  `prepare` is modelled as a value since
`encoder_output` and `bridge` are fixed for the whole decode call; the
decoder state and side params are per-lane lists. -/
structure DecoderM (S PP I W F : Type) : Type where
  mode : ModeKeys
  output_dtype_fields : List String
  output_ignore_fields : Option (List String)
  prepare : List S × List PP
  step : List I → List S → List PP → List (String × W) × List S
  merge_top_features : List (String × W) → F
  preprocessing_fn : Nat → List I → List I
  postprocessing_fn : Option (List I) → List I → List I

/-- The default `inputs_prepost_processing_fn` preprocessing hook
(decoder.py line 139): identity on the inputs. -/
def default_preprocessing_fn {I : Type} : Nat → List I → List I :=
  fun _ inputs => inputs

/-- The default `inputs_prepost_processing_fn` postprocessing hook
(decoder.py line 140): returns the predicted (new) inputs. -/
def default_postprocessing_fn {I : Type} :
    Option (List I) → List I → List I :=
  fun _ predicted_inputs => predicted_inputs

/-- The loop variables of the `tf.while_loop` in `dynamic_decode`
(decoder.py lines 328-335).  In the source the last three fields exist
only for mode==INFER; here they are always present but are initialized
identically and are neither read nor changed by the TRAIN/EVAL branch of
the body, so the TRAIN/EVAL loop is unchanged. -/
structure LoopVars (S I W : Type) : Type where
  time : Nat
  inputs : List I
  decoder_states : List S
  outputs_ta : List (String × TArr W)
  finished : List Bool
  log_probs : List ℚ
  lengths : List Nat
  infer_status_ta : InferStatusTA
deriving DecidableEq

/-- Writing one step's (schema-filtered) output record into the output
TensorArrays (decoder.py lines 293-294, `nest.map_structure` of
`ta.write(time, out)` over matching structures). -/
def write_outputs {W : Type} (tas : List (String × TArr W)) (time : Nat)
    (outs : List (String × W)) : List (String × TArr W) :=
  List.zipWith (fun ta o => (ta.1, ta_write ta.2 time o.2)) tas outs

section Loop

variable {S PP I W F L : Type}

/-- `body_traininfer` (decoder.py lines 275-326), the while-loop body.
Both modes share one shape; the `decoder.mode == ModeKeys.INFER` branch
additionally computes logits, samples next symbols, reorders the new
decoder states and the current (pre-processed) inputs by `beam_ids`,
records a `BeamSearchStateSpec` entry, and threads the returned
log-probabilities and lengths into the next iteration. -/
def body_traininfer [Inhabited S] [Inhabited I]
    (d : DecoderM S PP I W F) (tm : Modality I F L) (helper : Feedback L)
    (decoding_params : List PP) (v : LoopVars S I W) : LoopVars S I W :=
  let inputs := d.preprocessing_fn v.time v.inputs
  let step_res := d.step inputs v.decoder_states decoding_params
  let outputs := step_res.1
  let outputs_ta := write_outputs v.outputs_ta v.time
    (remover_apply d.mode d.output_ignore_fields outputs)
  if d.mode = ModeKeys.INFER then
    let logits := tm.top (d.merge_top_features outputs)
    let sampled := helper.sample_symbols logits v.log_probs v.finished v.lengths v.time
    let sample_ids := sampled.1
    let beam_ids := sampled.2.1
    let next_log_probs := sampled.2.2.1
    let next_lengths := sampled.2.2.2
    let next_decoder_states := gather_states step_res.2 beam_ids
    let prev_inputs := gather_states inputs beam_ids
    let infer_status_ta : InferStatusTA :=
      { log_probs := ta_write v.infer_status_ta.log_probs v.time next_log_probs
        predicted_ids := ta_write v.infer_status_ta.predicted_ids v.time sample_ids
        beam_ids := ta_write v.infer_status_ta.beam_ids v.time beam_ids
        lengths := ta_write v.infer_status_ta.lengths v.time next_lengths }
    let nxt := helper.next_symbols v.time (some sample_ids)
    let next_inputs := d.postprocessing_fn (some prev_inputs)
      (tm.targets_bottom nxt.2 (v.time + 1))
    let next_finished := List.zipWith (fun a b => a || b) nxt.1 v.finished
    { time := v.time + 1, inputs := next_inputs,
      decoder_states := next_decoder_states, outputs_ta := outputs_ta,
      finished := next_finished, log_probs := next_log_probs,
      lengths := next_lengths, infer_status_ta := infer_status_ta }
  else
    let nxt := helper.next_symbols v.time none
    let next_inputs := d.postprocessing_fn (some inputs)
      (tm.targets_bottom nxt.2 (v.time + 1))
    let next_finished := List.zipWith (fun a b => a || b) nxt.1 v.finished
    { time := v.time + 1, inputs := next_inputs,
      decoder_states := step_res.2, outputs_ta := outputs_ta,
      finished := next_finished, log_probs := v.log_probs,
      lengths := v.lengths, infer_status_ta := v.infer_status_ta }

/-- The while-loop condition (decoder.py line 338):
`tf.logical_not(tf.reduce_all(args[4]))`; `args[4]` is the finished
mask, and `tf.reduce_all` of an empty tensor is `True`. -/
def loop_cond {S I W : Type} (v : LoopVars S I W) : Bool :=
  ! v.finished.all (fun b => b)

/-- The initial decoder states and decoding params (decoder.py lines
267-270): `prepare`, then in mode INFER both are replicated across
`beam_size` lanes by `stack_beam_size`. -/
def prepared (d : DecoderM S PP I W F) (helper : Feedback L) :
    List S × List PP :=
  if d.mode = ModeKeys.INFER then
    (stack_beam_size d.prepare.1 helper.beam_size,
     stack_beam_size d.prepare.2 helper.beam_size)
  else
    d.prepare

/-- The initial loop variables (decoder.py lines 259-272 and 328-335):
initial finished mask and start symbols from the helper, embedded at
time 0 and post-processed with previous input `None`; one empty
TensorArray per retained output field; zero log-probabilities and
lengths shaped like the initial symbols. -/
def initial_loop_vars (d : DecoderM S PP I W F) (tm : Modality I F L)
    (helper : Feedback L) : LoopVars S I W :=
  let init := helper.init_symbols
  let initial_inputs := d.postprocessing_fn none (tm.targets_bottom init.2 0)
  { time := 0
    inputs := initial_inputs
    decoder_states := (prepared d helper).1
    outputs_ta :=
      (remover_retained d.mode d.output_dtype_fields d.output_ignore_fields).map
        (fun f => (f, (ta_empty : TArr W)))
    finished := init.1
    log_probs := List.replicate init.2.length 0
    lengths := List.replicate init.2.length 0
    infer_status_ta := ⟨ta_empty, ta_empty, ta_empty, ta_empty⟩ }

/-- `n` unconditional iterations of the loop body. -/
def loop_iter [Inhabited S] [Inhabited I]
    (d : DecoderM S PP I W F) (tm : Modality I F L) (helper : Feedback L)
    (decoding_params : List PP) : Nat → LoopVars S I W → LoopVars S I W
  | 0, v => v
  | n + 1, v => body_traininfer d tm helper decoding_params
      (loop_iter d tm helper decoding_params n v)

/-- The `tf.while_loop` (decoder.py lines 337-342), with explicit fuel:
`none` means the fuel ran out with the condition still true.  The loop
itself imposes no iteration cap; the fuel is an artifact of the eager
model only. -/
def run_loop [Inhabited S] [Inhabited I]
    (d : DecoderM S PP I W F) (tm : Modality I F L) (helper : Feedback L)
    (decoding_params : List PP) : Nat → LoopVars S I W →
    Option (LoopVars S I W)
  | 0, v => if loop_cond v then none else some v
  | fuel + 1, v =>
    if loop_cond v then
      run_loop d tm helper decoding_params fuel
        (body_traininfer d tm helper decoding_params v)
    else some v

/-- The final stacked beam-search status (decoder.py line 348). -/
structure FinalInferStatus : Type where
  log_probs : List (List ℚ)
  predicted_ids : List (List Nat)
  beam_ids : List (List Nat)
  lengths : List (List Nat)
deriving DecidableEq

/-- Stacks the four infer-status TensorArrays. -/
def stack_infer_status (ta : InferStatusTA) : Option FinalInferStatus :=
  match ta_stack ta.log_probs, ta_stack ta.predicted_ids,
        ta_stack ta.beam_ids, ta_stack ta.lengths with
  | some lp, some pi, some bi, some le =>
    some { log_probs := lp, predicted_ids := pi, beam_ids := bi, lengths := le }
  | _, _, _, _ => none

/-- The finalization after the loop (decoder.py lines 344-351): stack
every output TensorArray and, in mode INFER, the infer-status
TensorArrays; performed exactly once, on the loop's final variables. -/
def finalize_decode (d : DecoderM S PP I W F) (res : LoopVars S I W) :
    Option (List (String × List W) × Option FinalInferStatus) :=
  (map_option (fun p => (ta_stack p.2).map (fun l => (p.1, l))) res.outputs_ta).bind
    (fun final_outputs =>
      if d.mode = ModeKeys.INFER then
        (stack_infer_status res.infer_status_ta).map (fun st => (final_outputs, some st))
      else
        some (final_outputs, none))

/-- `dynamic_decode` (decoder.py lines 217-351): build the initial loop
variables, run the while loop, then finalize the buffers.  Returns
`none` when the fuel of the eager model runs out or a TensorArray is
stacked with a missing or duplicated index. -/
def dynamic_decode [Inhabited S] [Inhabited I]
    (d : DecoderM S PP I W F) (tm : Modality I F L) (helper : Feedback L)
    (fuel : Nat) :
    Option (List (String × List W) × Option FinalInferStatus) :=
  match run_loop d tm helper (prepared d helper).2 fuel
      (initial_loop_vars d tm helper) with
  | none => none
  | some res => finalize_decode d res

/-- The schema-filtered output record produced by the loop body from the
loop variables `v` (decoder.py lines 291-294): pre-process the inputs,
run one `step`, and drop the ignored fields. -/
def step_filtered_output (d : DecoderM S PP I W F)
    (decoding_params : List PP) (v : LoopVars S I W) : List (String × W) :=
  remover_apply d.mode d.output_ignore_fields
    (d.step (d.preprocessing_fn v.time v.inputs) v.decoder_states decoding_params).1

/-- The write log of a TensorArray that was written at every index
`0..n-1` in order, with value `f t` at index `t`. -/
def ta_log {α : Type} (f : Nat → α) (n : Nat) : TArr α :=
  (List.range n).map (fun t => (t, f t))

/-- The value of retained field number `j` of the step executed at loop
iteration `t` (counting from the initial loop variables `v`). -/
def field_value_at [Inhabited S] [Inhabited I] [Inhabited W]
    (d : DecoderM S PP I W F) (tm : Modality I F L) (helper : Feedback L)
    (decoding_params : List PP) (v : LoopVars S I W) (j t : Nat) : W :=
  ((step_filtered_output d decoding_params
      (loop_iter d tm helper decoding_params t v)).getD j ("", default)).2

/-- The `BeamSearchStateSpec` entry recorded by the inference branch of
the loop body from the loop variables `v` (decoder.py lines 298-314). -/
def infer_status_at (d : DecoderM S PP I W F) (tm : Modality I F L)
    (helper : Feedback L) (decoding_params : List PP)
    (v : LoopVars S I W) : BeamSearchStateSpec :=
  let outputs :=
    (d.step (d.preprocessing_fn v.time v.inputs) v.decoder_states decoding_params).1
  let sampled := helper.sample_symbols (tm.top (d.merge_top_features outputs))
    v.log_probs v.finished v.lengths v.time
  { log_probs := sampled.2.2.1
    predicted_ids := sampled.1
    beam_ids := sampled.2.1
    lengths := sampled.2.2.2 }

end Loop

/-! ### Concrete instances used by witnesses and counterexamples.
All collaborator types are instantiated with `Nat`; log-probabilities
stay rational. -/

/-- A minimal modality: symbols embed to themselves, features project to
themselves. -/
def tmN : Modality Nat Nat Nat :=
  { targets_bottom := fun syms _ => syms
    top := fun f => f }

/-- An inference-mode decoder whose `step` returns its (batched) input
vector as the new decoder state, so that reordering is observable. -/
def dInfer : DecoderM Nat Nat Nat Nat Nat :=
  { mode := ModeKeys.INFER
    output_dtype_fields := ["out"]
    output_ignore_fields := none
    prepare := ([0], [0])
    step := fun inputs _ _ => ([("out", 0)], inputs)
    merge_top_features := fun _ => 0
    preprocessing_fn := default_preprocessing_fn
    postprocessing_fn := default_postprocessing_fn }

/-- An inference-mode decoder whose postprocessing hook returns its first
argument (the "previous inputs" value), making that argument observable. -/
def dPost : DecoderM Nat Nat Nat Nat Nat :=
  { mode := ModeKeys.INFER
    output_dtype_fields := ["out"]
    output_ignore_fields := none
    prepare := ([0], [0])
    step := fun _ states _ => ([("out", 0)], states)
    merge_top_features := fun _ => 0
    preprocessing_fn := default_preprocessing_fn
    postprocessing_fn := fun prev new => prev.getD new }

/-- A train-mode decoder with a single retained output field. -/
def dTrain : DecoderM Nat Nat Nat Nat Nat :=
  { mode := ModeKeys.TRAIN
    output_dtype_fields := ["out"]
    output_ignore_fields := none
    prepare := ([0], [0])
    step := fun _ states _ => ([("out", 0)], states)
    merge_top_features := fun _ => 0
    preprocessing_fn := default_preprocessing_fn
    postprocessing_fn := default_postprocessing_fn }

/-- A beam-width-2 feedback whose sampling always returns parent beam
indices `[1, 0]` (the swap of the claimed reorder scenario). -/
def hSwap : Feedback Nat :=
  { beam_size := 2
    init_symbols := ([false, false], [0, 0])
    sample_symbols := fun _ _ _ _ _ => ([0, 0], [1, 0], [0, 0], [0, 0])
    next_symbols := fun _ _ => ([false, false], [9, 9]) }

/-- A feedback that reports every lane finished at every time, including
time 0 (and hence also at time 3, "regardless of content"), with an
initial mask that is not all-true. -/
def hEager : Feedback Nat :=
  { beam_size := 1
    init_symbols := ([false], [0])
    sample_symbols := fun _ _ _ _ _ => ([], [], [], [])
    next_symbols := fun _ _ => ([true], [0]) }

/-- A feedback that force-finishes all lanes exactly at time 3 and
reports no lane finished before. -/
def hForce3 : Feedback Nat :=
  { beam_size := 1
    init_symbols := ([false], [0])
    sample_symbols := fun _ _ _ _ _ => ([], [], [], [])
    next_symbols := fun t _ => ([decide (3 ≤ t)], [0]) }

/-- A feedback for an empty batch: zero lanes. -/
def hEmpty : Feedback Nat :=
  { beam_size := 1
    init_symbols := ([], [])
    sample_symbols := fun _ _ _ _ _ => ([], [], [], [])
    next_symbols := fun _ _ => ([], []) }

/-- A one-lane inference feedback that subtracts 1/10 from the prior
log-probability at each step and force-finishes at time 4 (so exactly 5
steps run). -/
def hTenth : Feedback Nat :=
  { beam_size := 1
    init_symbols := ([false], [7])
    sample_symbols := fun _ lp _ _ _ => ([0], [0], lp.map (fun x => x - 1/10), [0])
    next_symbols := fun t _ => ([decide (4 ≤ t)], [0]) }

/-- Modelled from the spec: the teacher-forcing feedback policy (spec
§4.1 mode TRAIN/EVAL and §3 invariants; the concrete `Feedback`
subclasses of the repository are not in src).  It drives `n` lanes
through a target sequence of length `tgt_len`: the mask it reports after
the step at time `t` marks every lane finished exactly when the driving
input sequence is exhausted, i.e. when `t + 1 ≥ tgt_len`. -/
def train_feedback (tgt_len n : Nat) : Feedback Nat :=
  { beam_size := 1
    init_symbols := (List.replicate n false, List.replicate n 0)
    sample_symbols := fun _ _ _ _ _ => ([], [], [], [])
    next_symbols := fun t _ => (List.replicate n (decide (tgt_len ≤ t + 1)), List.replicate n 0) }

/-- Generic loop variables for a 2-lane inference scenario with
distinguishable pending inputs and decoder states. -/
def vTwoLane : LoopVars Nat Nat Nat :=
  { time := 0
    inputs := [10, 20]
    decoder_states := [1, 2]
    outputs_ta := [("out", ta_empty)]
    finished := [false, false]
    log_probs := [0, 0]
    lengths := [0, 0]
    infer_status_ta := ⟨ta_empty, ta_empty, ta_empty, ta_empty⟩ }

/-! ### Shared lemmas -/

theorem map_option_eq_some {α β : Type} (g : α → Option β) (f : α → β) :
    ∀ (l : List α), (∀ x ∈ l, g x = some (f x)) →
    map_option g l = some (l.map f) := by
  intro l
  induction l with
  | nil => intro _; rfl
  | cons x xs ih =>
    intro h
    have hx : g x = some (f x) := h x (by simp)
    have hxs : map_option g xs = some (xs.map f) :=
      ih (fun y hy => h y (by simp [hy]))
    simp [map_option, hx, hxs]

theorem ta_log_succ {α : Type} (f : Nat → α) (n : Nat) :
    ta_log f (n + 1) = ta_log f n ++ [(n, f n)] := by
  simp [ta_log, List.range_succ]

theorem ta_log_length {α : Type} (f : Nat → α) (n : Nat) :
    (ta_log f n).length = n := by
  simp [ta_log]

theorem ta_log_filter_ge {α : Type} (f : Nat → α) :
    ∀ (n i : Nat), n ≤ i →
    (ta_log f n).filter (fun p => p.1 = i) = [] := by
  intro n
  induction n with
  | zero => intro i _; rfl
  | succ n ih =>
    intro i hi
    rw [ta_log_succ, List.filter_append, ih i (by omega)]
    have : n ≠ i := by omega
    simp [this]

theorem ta_log_filter_lt {α : Type} (f : Nat → α) :
    ∀ (n i : Nat), i < n →
    (ta_log f n).filter (fun p => p.1 = i) = [(i, f i)] := by
  intro n
  induction n with
  | zero => intro i hi; omega
  | succ n ih =>
    intro i hi
    rw [ta_log_succ, List.filter_append]
    by_cases h : i < n
    · rw [ih i h]
      have hne : n ≠ i := by omega
      simp [hne]
    · have hn : i = n := by omega
      subst hn
      rw [ta_log_filter_ge f i i (le_refl i)]
      simp

theorem ta_stack_log {α : Type} (f : Nat → α) (n : Nat) :
    ta_stack (ta_log f n) = some ((List.range n).map f) := by
  unfold ta_stack
  rw [ta_log_length]
  apply map_option_eq_some
  intro i hi
  have hi' : i < n := List.mem_range.mp hi
  rw [ta_log_filter_lt f n i hi']

theorem map_range_getD {α β : Type} (g : α → β) (c : α) :
    ∀ (l : List α),
    (List.range l.length).map (fun j => g (l.getD j c)) = l.map g := by
  intro l
  induction l with
  | nil => rfl
  | cons x xs ih =>
    show (List.range (xs.length + 1)).map _ = _
    rw [List.range_succ_eq_map]
    simp only [List.map_cons, List.map_map]
    rw [List.getD_cons_zero]
    refine congrArg (g x :: ·) ?_
    rw [← ih]
    apply List.map_congr_left
    intro j _
    simp [Function.comp, List.getD_cons_succ]

theorem remover_apply_fst {W : Type} (m : ModeKeys) (ig : Option (List String))
    (r : List (String × W)) :
    (remover_apply m ig r).map Prod.fst = remover_retained m (r.map Prod.fst) ig := by
  cases m <;> cases ig <;>
    simp [remover_apply, remover_retained, List.filter_map, Function.comp_def]

theorem zipWith_or_getD_right (as bs : List Bool) (i : Nat)
    (hab : as.length = bs.length) (hb : bs.getD i false = true) :
    (List.zipWith (fun a b => a || b) as bs).getD i false = true := by
  induction as generalizing bs i with
  | nil =>
    cases bs with
    | nil => simp [List.getD] at hb
    | cons b bs => simp at hab
  | cons a as ih =>
    cases bs with
    | nil => simp at hab
    | cons b bs =>
      cases i with
      | zero =>
        rw [List.getD_cons_zero] at hb
        simp [List.zipWith, List.getD_cons_zero, hb]
      | succ i =>
        rw [List.getD_cons_succ] at hb
        simp only [List.zipWith, List.getD_cons_succ]
        exact ih bs i (by simpa using hab) hb

theorem zipWith_or_length (as bs : List Bool) (hab : as.length = bs.length) :
    (List.zipWith (fun a b => a || b) as bs).length = bs.length := by
  rw [List.length_zipWith, hab]
  omega

section LoopLemmas

variable {S PP I W F L : Type} [Inhabited S] [Inhabited I]
variable (d : DecoderM S PP I W F) (tm : Modality I F L) (helper : Feedback L)
variable (ps : List PP)

theorem body_time (v : LoopVars S I W) :
    (body_traininfer d tm helper ps v).time = v.time + 1 := by
  unfold body_traininfer
  split <;> rfl

theorem body_outputs_ta (v : LoopVars S I W) :
    (body_traininfer d tm helper ps v).outputs_ta =
      write_outputs v.outputs_ta v.time (step_filtered_output d ps v) := by
  unfold body_traininfer step_filtered_output
  split <;> rfl

theorem body_finished_eq (v : LoopVars S I W) :
    ∃ s, (body_traininfer d tm helper ps v).finished =
      List.zipWith (fun a b => a || b) ((helper.next_symbols v.time s).1) v.finished := by
  unfold body_traininfer
  split
  · exact ⟨_, rfl⟩
  · exact ⟨none, rfl⟩

theorem loop_iter_zero (v : LoopVars S I W) :
    loop_iter d tm helper ps 0 v = v := rfl

theorem loop_iter_succ (n : Nat) (v : LoopVars S I W) :
    loop_iter d tm helper ps (n + 1) v =
      body_traininfer d tm helper ps (loop_iter d tm helper ps n v) := rfl

theorem loop_iter_front (n : Nat) (v : LoopVars S I W) :
    loop_iter d tm helper ps (n + 1) v =
      loop_iter d tm helper ps n (body_traininfer d tm helper ps v) := by
  induction n with
  | zero => rfl
  | succ n ih =>
    rw [loop_iter_succ, ih, ← loop_iter_succ]

theorem loop_iter_time (n : Nat) (v : LoopVars S I W) :
    (loop_iter d tm helper ps n v).time = v.time + n := by
  induction n with
  | zero => rfl
  | succ n ih =>
    rw [loop_iter_succ, body_time, ih]
    omega

theorem run_loop_zero_pos (v : LoopVars S I W) (hc : loop_cond v = true) :
    run_loop d tm helper ps 0 v = none := by
  unfold run_loop
  rw [hc]
  rfl

theorem run_loop_zero_neg (v : LoopVars S I W) (hc : loop_cond v = false) :
    run_loop d tm helper ps 0 v = some v := by
  unfold run_loop
  rw [hc]
  rfl

theorem run_loop_succ_pos (fuel : Nat) (v : LoopVars S I W)
    (hc : loop_cond v = true) :
    run_loop d tm helper ps (fuel + 1) v =
      run_loop d tm helper ps fuel (body_traininfer d tm helper ps v) := by
  conv =>
    lhs
    unfold run_loop
  rw [hc]
  rfl

theorem run_loop_succ_neg (fuel : Nat) (v : LoopVars S I W)
    (hc : loop_cond v = false) :
    run_loop d tm helper ps (fuel + 1) v = some v := by
  conv =>
    lhs
    unfold run_loop
  rw [hc]
  rfl

theorem run_loop_eq_some_iff (fuel : Nat) (v w : LoopVars S I W) :
    run_loop d tm helper ps fuel v = some w ↔
      ∃ N, N ≤ fuel ∧ (∀ t, t < N → loop_cond (loop_iter d tm helper ps t v) = true) ∧
        loop_cond (loop_iter d tm helper ps N v) = false ∧
        w = loop_iter d tm helper ps N v := by
  induction fuel generalizing v with
  | zero =>
    cases hc : loop_cond v with
    | true =>
      rw [run_loop_zero_pos d tm helper ps v hc]
      constructor
      · intro h; cases h
      · rintro ⟨N, hN, _, hfalse, _⟩
        interval_cases N
        rw [loop_iter_zero, hc] at hfalse
        cases hfalse
    | false =>
      rw [run_loop_zero_neg d tm helper ps v hc]
      constructor
      · intro h
        refine ⟨0, le_refl 0, ?_, ?_, ?_⟩
        · intro t ht; exact absurd ht (by omega)
        · rw [loop_iter_zero]; exact hc
        · rw [loop_iter_zero]; exact (Option.some_inj.mp h).symm
      · rintro ⟨N, hN, _, _, hw⟩
        interval_cases N
        rw [loop_iter_zero] at hw
        rw [hw]
  | succ fuel ih =>
    cases hc : loop_cond v with
    | true =>
      rw [run_loop_succ_pos d tm helper ps fuel v hc,
        ih (body_traininfer d tm helper ps v)]
      constructor
      · rintro ⟨N, hN, hall, hfalse, hw⟩
        refine ⟨N + 1, by omega, ?_, ?_, ?_⟩
        · intro t ht
          cases t with
          | zero => rw [loop_iter_zero]; exact hc
          | succ t =>
            rw [loop_iter_front]
            exact hall t (by omega)
        · rw [loop_iter_front]; exact hfalse
        · rw [loop_iter_front]; exact hw
      · rintro ⟨N, hN, hall, hfalse, hw⟩
        cases N with
        | zero =>
          rw [loop_iter_zero, hc] at hfalse
          cases hfalse
        | succ N =>
          refine ⟨N, by omega, ?_, ?_, ?_⟩
          · intro t ht
            rw [← loop_iter_front]
            exact hall (t + 1) (by omega)
          · rw [← loop_iter_front]; exact hfalse
          · rw [← loop_iter_front]; exact hw
    | false =>
      rw [run_loop_succ_neg d tm helper ps fuel v hc]
      constructor
      · intro h
        refine ⟨0, by omega, ?_, ?_, ?_⟩
        · intro t ht; exact absurd ht (by omega)
        · rw [loop_iter_zero]; exact hc
        · rw [loop_iter_zero]; exact (Option.some_inj.mp h).symm
      · rintro ⟨N, hN, hall, _, hw⟩
        cases N with
        | zero =>
          rw [loop_iter_zero] at hw
          rw [hw]
        | succ N =>
          have h0 := hall 0 (by omega)
          rw [loop_iter_zero, hc] at h0
          cases h0

theorem run_loop_none_of_never (v : LoopVars S I W)
    (h : ∀ n, loop_cond (loop_iter d tm helper ps n v) = true) :
    ∀ fuel, run_loop d tm helper ps fuel v = none := by
  intro fuel
  cases hr : run_loop d tm helper ps fuel v with
  | none => rfl
  | some w =>
    rcases (run_loop_eq_some_iff d tm helper ps fuel v w).mp hr with
      ⟨N, _, _, hfalse, _⟩
    rw [h N] at hfalse
    cases hfalse

theorem getD_map_range {β : Type} (g : Nat → β) (c : β) (n j : Nat) (hj : j < n) :
    ((List.range n).map g).getD j c = g j := by
  rw [List.getD_eq_getElem?_getD, List.getElem?_map,
    List.getElem?_eq_getElem (by simpa using hj)]
  simp

theorem zipWith_or_all_left (a : List Bool) :
    ∀ (b : List Bool), a.all (fun x => x) = true →
    (List.zipWith (fun x y => x || y) a b).all (fun x => x) = true := by
  induction a with
  | nil => intro b _; rfl
  | cons x xs ih =>
    intro b h
    cases b with
    | nil => rfl
    | cons y ys =>
      simp only [List.all_cons, Bool.and_eq_true] at h
      simp only [List.zipWith, List.all_cons, Bool.and_eq_true]
      exact ⟨by rw [h.1]; rfl, ih ys h.2⟩

theorem body_infer_fields {S PP I W F L : Type} [Inhabited S] [Inhabited I]
    (d : DecoderM S PP I W F) (tm : Modality I F L) (helper : Feedback L)
    (ps : List PP) (v : LoopVars S I W) (hm : d.mode = ModeKeys.INFER) :
    (body_traininfer d tm helper ps v).log_probs =
      (infer_status_at d tm helper ps v).log_probs ∧
    (body_traininfer d tm helper ps v).lengths =
      (infer_status_at d tm helper ps v).lengths ∧
    (body_traininfer d tm helper ps v).decoder_states =
      gather_states (d.step (d.preprocessing_fn v.time v.inputs) v.decoder_states ps).2
        (infer_status_at d tm helper ps v).beam_ids ∧
    (body_traininfer d tm helper ps v).inputs =
      d.postprocessing_fn
        (some (gather_states (d.preprocessing_fn v.time v.inputs)
          (infer_status_at d tm helper ps v).beam_ids))
        (tm.targets_bottom
          ((helper.next_symbols v.time
            (some (infer_status_at d tm helper ps v).predicted_ids)).2) (v.time + 1)) ∧
    (body_traininfer d tm helper ps v).infer_status_ta =
      { log_probs := ta_write v.infer_status_ta.log_probs v.time
          (infer_status_at d tm helper ps v).log_probs
        predicted_ids := ta_write v.infer_status_ta.predicted_ids v.time
          (infer_status_at d tm helper ps v).predicted_ids
        beam_ids := ta_write v.infer_status_ta.beam_ids v.time
          (infer_status_at d tm helper ps v).beam_ids
        lengths := ta_write v.infer_status_ta.lengths v.time
          (infer_status_at d tm helper ps v).lengths } := by
  unfold body_traininfer
  split
  next => exact ⟨rfl, rfl, rfl, rfl, rfl⟩
  next h => exact absurd hm h

theorem body_train_fields {S PP I W F L : Type} [Inhabited S] [Inhabited I]
    (d : DecoderM S PP I W F) (tm : Modality I F L) (helper : Feedback L)
    (ps : List PP) (v : LoopVars S I W) (hm : ¬ d.mode = ModeKeys.INFER) :
    (body_traininfer d tm helper ps v).log_probs = v.log_probs ∧
    (body_traininfer d tm helper ps v).lengths = v.lengths ∧
    (body_traininfer d tm helper ps v).decoder_states =
      (d.step (d.preprocessing_fn v.time v.inputs) v.decoder_states ps).2 ∧
    (body_traininfer d tm helper ps v).inputs =
      d.postprocessing_fn (some (d.preprocessing_fn v.time v.inputs))
        (tm.targets_bottom ((helper.next_symbols v.time none).2) (v.time + 1)) ∧
    (body_traininfer d tm helper ps v).infer_status_ta = v.infer_status_ta := by
  unfold body_traininfer
  split
  next h => exact absurd h hm
  next => exact ⟨rfl, rfl, rfl, rfl, rfl⟩

theorem body_finished_len (v : LoopVars S I W) (n : Nat)
    (hlen : ∀ t s, ((helper.next_symbols t s).1).length = n)
    (hv : v.finished.length = n) :
    (body_traininfer d tm helper ps v).finished.length = n := by
  rcases body_finished_eq d tm helper ps v with ⟨s, hs⟩
  rw [hs, zipWith_or_length _ _ (by rw [hlen, hv]), hv]

theorem body_finished_mono (v : LoopVars S I W) (n : Nat)
    (hlen : ∀ t s, ((helper.next_symbols t s).1).length = n)
    (hv : v.finished.length = n) (i : Nat)
    (hi : v.finished.getD i false = true) :
    (body_traininfer d tm helper ps v).finished.getD i false = true := by
  rcases body_finished_eq d tm helper ps v with ⟨s, hs⟩
  rw [hs]
  exact zipWith_or_getD_right _ _ _ (by rw [hlen, hv]) hi

theorem loop_iter_finished_len (v : LoopVars S I W) (n : Nat)
    (hlen : ∀ t s, ((helper.next_symbols t s).1).length = n)
    (hv : v.finished.length = n) (k : Nat) :
    (loop_iter d tm helper ps k v).finished.length = n := by
  induction k with
  | zero => exact hv
  | succ k ih =>
    rw [loop_iter_succ]
    exact body_finished_len d tm helper ps _ n hlen ih

theorem loop_iter_finished_mono (v : LoopVars S I W) (n : Nat)
    (hlen : ∀ t s, ((helper.next_symbols t s).1).length = n)
    (hv : v.finished.length = n) (i k m : Nat) (hkm : k ≤ m)
    (hk : (loop_iter d tm helper ps k v).finished.getD i false = true) :
    (loop_iter d tm helper ps m v).finished.getD i false = true := by
  induction m with
  | zero =>
    have hk0 : k = 0 := by omega
    rw [hk0] at hk
    exact hk
  | succ m ih =>
    by_cases h : k = m + 1
    · rw [← h]; exact hk
    · have hkm' : k ≤ m := by omega
      rw [loop_iter_succ]
      exact body_finished_mono d tm helper ps _ n hlen
        (loop_iter_finished_len d tm helper ps v n hlen hv m) i (ih hkm')

theorem sfo_fst (v : LoopVars S I W)
    (Hs : ∀ inputs states,
      ((d.step inputs states ps).1).map Prod.fst = d.output_dtype_fields) :
    (step_filtered_output d ps v).map Prod.fst =
      remover_retained d.mode d.output_dtype_fields d.output_ignore_fields := by
  unfold step_filtered_output
  rw [remover_apply_fst, Hs]

theorem sfo_length (v : LoopVars S I W)
    (Hs : ∀ inputs states,
      ((d.step inputs states ps).1).map Prod.fst = d.output_dtype_fields) :
    (step_filtered_output d ps v).length =
      (remover_retained d.mode d.output_dtype_fields d.output_ignore_fields).length := by
  rw [← List.length_map (step_filtered_output d ps v) Prod.fst, sfo_fst d ps v Hs]

theorem loop_iter_outputs_ta [Inhabited W] (v : LoopVars S I W)
    (Hs : ∀ inputs states,
      ((d.step inputs states ps).1).map Prod.fst = d.output_dtype_fields)
    (ht : v.time = 0)
    (hta : v.outputs_ta =
      (remover_retained d.mode d.output_dtype_fields d.output_ignore_fields).map
        (fun f => (f, (ta_empty : TArr W))))
    (n : Nat) :
    (loop_iter d tm helper ps n v).outputs_ta =
      (List.range (remover_retained d.mode d.output_dtype_fields
          d.output_ignore_fields).length).map
        (fun j => ((remover_retained d.mode d.output_dtype_fields
            d.output_ignore_fields).getD j "",
          ta_log (field_value_at d tm helper ps v j) n)) := by
  induction n with
  | zero =>
    rw [loop_iter_zero, hta]
    exact (map_range_getD (fun f => (f, (ta_empty : TArr W))) ""
      (remover_retained d.mode d.output_dtype_fields d.output_ignore_fields)).symm
  | succ n ih =>
    rw [loop_iter_succ, body_outputs_ta, ih]
    have htime : (loop_iter d tm helper ps n v).time = n := by
      rw [loop_iter_time, ht]
      omega
    rw [htime]
    have hBlen : (step_filtered_output d ps (loop_iter d tm helper ps n v)).length =
        (remover_retained d.mode d.output_dtype_fields d.output_ignore_fields).length :=
      sfo_length d ps _ Hs
    have hB : (List.range (remover_retained d.mode d.output_dtype_fields
          d.output_ignore_fields).length).map
        (fun j => (step_filtered_output d ps
          (loop_iter d tm helper ps n v)).getD j ("", (default : W))) =
        step_filtered_output d ps (loop_iter d tm helper ps n v) := by
      rw [← hBlen]
      have h := map_range_getD (fun x => x) ("", (default : W))
        (step_filtered_output d ps (loop_iter d tm helper ps n v))
      simpa using h
    unfold write_outputs
    rw [← hB, List.zipWith_map, List.zipWith_same]
    apply List.map_congr_left
    intro j _
    show ((remover_retained d.mode d.output_dtype_fields d.output_ignore_fields).getD j "",
        ta_write (ta_log (field_value_at d tm helper ps v j) n) n
          ((step_filtered_output d ps (loop_iter d tm helper ps n v)).getD j
            ("", (default : W))).2) = _
    rw [ta_log_succ]
    rfl

theorem loop_iter_infer_ta (v : LoopVars S I W)
    (hm : d.mode = ModeKeys.INFER) (ht : v.time = 0)
    (h0 : v.infer_status_ta = ⟨ta_empty, ta_empty, ta_empty, ta_empty⟩) (n : Nat) :
    (loop_iter d tm helper ps n v).infer_status_ta =
      { log_probs := ta_log
          (fun t => (infer_status_at d tm helper ps (loop_iter d tm helper ps t v)).log_probs) n
        predicted_ids := ta_log
          (fun t => (infer_status_at d tm helper ps (loop_iter d tm helper ps t v)).predicted_ids) n
        beam_ids := ta_log
          (fun t => (infer_status_at d tm helper ps (loop_iter d tm helper ps t v)).beam_ids) n
        lengths := ta_log
          (fun t => (infer_status_at d tm helper ps (loop_iter d tm helper ps t v)).lengths) n } := by
  induction n with
  | zero => exact h0
  | succ n ih =>
    rw [loop_iter_succ]
    rcases body_infer_fields d tm helper ps (loop_iter d tm helper ps n v) hm with
      ⟨_, _, _, _, hta⟩
    rw [hta, ih]
    have htime : (loop_iter d tm helper ps n v).time = n := by
      rw [loop_iter_time, ht]
      omega
    rw [htime]
    simp only [ta_log_succ]
    rfl

end LoopLemmas

theorem train_feedback_finished {S PP I W F : Type} [Inhabited S] [Inhabited I]
    (d : DecoderM S PP I W F) (tm : Modality I F Nat) (ps : List PP)
    (tgt_len n : Nat) (hL : 1 ≤ tgt_len) : ∀ (k : Nat),
    (loop_iter d tm (train_feedback tgt_len n) ps k
      (initial_loop_vars d tm (train_feedback tgt_len n))).finished =
      List.replicate n (decide (tgt_len ≤ k)) := by
  intro k
  induction k with
  | zero =>
    have hdec : decide (tgt_len ≤ 0) = false := decide_eq_false (by omega)
    rw [loop_iter_zero, hdec]
    rfl
  | succ k ih =>
    rw [loop_iter_succ]
    rcases body_finished_eq d tm (train_feedback tgt_len n) ps
      (loop_iter d tm (train_feedback tgt_len n) ps k
        (initial_loop_vars d tm (train_feedback tgt_len n))) with ⟨s, hs⟩
    have htime : (loop_iter d tm (train_feedback tgt_len n) ps k
        (initial_loop_vars d tm (train_feedback tgt_len n))).time = k := by
      rw [loop_iter_time]
      show 0 + k = k
      omega
    rw [hs, htime, ih]
    show List.zipWith _ (List.replicate n (decide (tgt_len ≤ k + 1))) _ = _
    rw [List.zipWith_replicate]
    have hb : (decide (tgt_len ≤ k + 1) || decide (tgt_len ≤ k)) =
        decide (tgt_len ≤ k + 1) := by
      by_cases h1 : tgt_len ≤ k
      · have h2 : tgt_len ≤ k + 1 := by omega
        simp [h1, h2]
      · simp [h1]
    rw [hb]
    simp

theorem gather_states_getD {α : Type} [Inhabited α] (xs : List α)
    (ids : List Nat) (i : Nat) (hi : i < ids.length) :
    (gather_states xs ids).getD i default = xs.getD (ids.getD i 0) default := by
  unfold gather_states
  rw [List.getD_eq_getElem?_getD, List.getElem?_map, List.getElem?_eq_getElem hi,
    List.getD_eq_getElem?_getD ids i 0, List.getElem?_eq_getElem hi]
  simp

/-! ### Claims -/

/-- C1: at every inference step, after the feedback policy returns parent
beam indices, the driver applies the `beam_ids` gather to BOTH the new
decoder state and the current step's (pre-processed) input: for every
lane `i` the reordered state and pending input equal the pre-reorder
values at lane `beam_ids[i]`, and the pending input carried into the
postprocessing hook is the reordered one (decoder.py lines 306-307). -/
theorem beam_reorder_gathers_state_and_pending_input
    {S PP I W F L : Type} [Inhabited S] [Inhabited I]
    (d : DecoderM S PP I W F) (tm : Modality I F L) (helper : Feedback L)
    (ps : List PP) (v : LoopVars S I W) (hm : d.mode = ModeKeys.INFER) :
    (body_traininfer d tm helper ps v).decoder_states =
      gather_states (d.step (d.preprocessing_fn v.time v.inputs) v.decoder_states ps).2
        (infer_status_at d tm helper ps v).beam_ids ∧
    (∀ i, i < (infer_status_at d tm helper ps v).beam_ids.length →
      (body_traininfer d tm helper ps v).decoder_states.getD i default =
        (d.step (d.preprocessing_fn v.time v.inputs) v.decoder_states ps).2.getD
          ((infer_status_at d tm helper ps v).beam_ids.getD i 0) default) ∧
    (body_traininfer d tm helper ps v).inputs =
      d.postprocessing_fn
        (some (gather_states (d.preprocessing_fn v.time v.inputs)
          (infer_status_at d tm helper ps v).beam_ids))
        (tm.targets_bottom ((helper.next_symbols v.time
          (some (infer_status_at d tm helper ps v).predicted_ids)).2) (v.time + 1)) ∧
    (∀ i, i < (infer_status_at d tm helper ps v).beam_ids.length →
      (gather_states (d.preprocessing_fn v.time v.inputs)
          (infer_status_at d tm helper ps v).beam_ids).getD i default =
        (d.preprocessing_fn v.time v.inputs).getD
          ((infer_status_at d tm helper ps v).beam_ids.getD i 0) default) := by
  rcases body_infer_fields d tm helper ps v hm with ⟨_, _, hst, hin, _⟩
  refine ⟨hst, ?_, hin, ?_⟩
  · intro i hi
    rw [hst]
    exact gather_states_getD _ _ i hi
  · intro i hi
    exact gather_states_getD _ _ i hi

/-- Witness for C1: the claimed beam-width-2 scenario with
`beam_ids = [1, 0]`: lane 0's post-reorder state and pending input are
lane 1's pre-reorder values and vice versa. -/
theorem beam_reorder_gathers_state_and_pending_input_witness :
    (body_traininfer dInfer tmN hSwap [] vTwoLane).decoder_states = [20, 10] ∧
    gather_states (dInfer.preprocessing_fn vTwoLane.time vTwoLane.inputs)
      (infer_status_at dInfer tmN hSwap [] vTwoLane).beam_ids = [20, 10] ∧
    (dInfer.step (dInfer.preprocessing_fn vTwoLane.time vTwoLane.inputs)
      vTwoLane.decoder_states []).2 = [10, 20] := by
  have h := beam_reorder_gathers_state_and_pending_input dInfer tmN hSwap [] vTwoLane rfl
  refine ⟨?_, rfl, rfl⟩
  rw [h.1]
  rfl

/-- C2: the finished mask is monotonic: provided the feedback policy
reports masks of the constant lane count, once a lane's finished flag is
true at step `t` it stays true at every later step, because each step's
new mask is the OR of the newly reported finished lanes with the
previous mask (decoder.py line 322). -/
theorem finished_mask_monotonic
    {S PP I W F L : Type} [Inhabited S] [Inhabited I]
    (d : DecoderM S PP I W F) (tm : Modality I F L) (helper : Feedback L)
    (ps : List PP) (v : LoopVars S I W) (n : Nat)
    (hlen : ∀ t s, ((helper.next_symbols t s).1).length = n)
    (hv : v.finished.length = n) :
    (∀ i t u, t ≤ u →
      (loop_iter d tm helper ps t v).finished.getD i false = true →
      (loop_iter d tm helper ps u v).finished.getD i false = true) ∧
    (∀ w : LoopVars S I W, ∃ s, (body_traininfer d tm helper ps w).finished =
      List.zipWith (fun a b => a || b) ((helper.next_symbols w.time s).1) w.finished) := by
  constructor
  · intro i t u htu ht
    exact loop_iter_finished_mono d tm helper ps v n hlen hv i t u htu ht
  · intro w
    exact body_finished_eq d tm helper ps w

/-- Witness for C2: with the force-finish-at-3 policy, lane 0 finishes at
step 4 and is still finished at step 5. -/
theorem finished_mask_monotonic_witness :
    (loop_iter dTrain tmN hForce3 [] 5
      (initial_loop_vars dTrain tmN hForce3)).finished.getD 0 false = true := by
  have h := (finished_mask_monotonic dTrain tmN hForce3 []
    (initial_loop_vars dTrain tmN hForce3) 1 (fun _ _ => rfl) rfl).1
  exact h 0 4 5 (by omega) (by decide)

/-- C9: in inference mode, every lane's accumulated log-probability and
length start at 0 (decoder.py lines 332-333), and the driver threads the
feedback policy's returned next log-probabilities verbatim into the next
iteration (line 315); with a policy adding -1/10 per step to its single
lane, after 5 steps the accumulated log-probability is -1/2. -/
theorem log_prob_zero_init_and_threading
    {S PP I W F L : Type} [Inhabited S] [Inhabited I]
    (d : DecoderM S PP I W F) (tm : Modality I F L) (helper : Feedback L)
    (ps : List PP) (v : LoopVars S I W) (hm : d.mode = ModeKeys.INFER) :
    ((initial_loop_vars d tm helper : LoopVars S I W).log_probs =
      List.replicate helper.init_symbols.2.length 0) ∧
    ((initial_loop_vars d tm helper : LoopVars S I W).lengths =
      List.replicate helper.init_symbols.2.length 0) ∧
    ((body_traininfer d tm helper ps v).log_probs =
      (helper.sample_symbols
        (tm.top (d.merge_top_features
          (d.step (d.preprocessing_fn v.time v.inputs) v.decoder_states ps).1))
        v.log_probs v.finished v.lengths v.time).2.2.1) ∧
    ((loop_iter dInfer tmN hTenth [] 5
      (initial_loop_vars dInfer tmN hTenth)).log_probs = [-(1/2)]) := by
  refine ⟨rfl, rfl, (body_infer_fields d tm helper ps v hm).1, ?_⟩
  have h : (loop_iter dInfer tmN hTenth [] 5
      (initial_loop_vars dInfer tmN hTenth)).log_probs =
      [0 - 1/10 - 1/10 - 1/10 - 1/10 - 1/10] := rfl
  rw [h]
  norm_num

/-- Witness for C9: the -1/10-per-step policy accumulates exactly -1/2
after 5 steps on lane 0. -/
theorem log_prob_zero_init_and_threading_witness :
    (loop_iter dInfer tmN hTenth [] 5
      (initial_loop_vars dInfer tmN hTenth)).log_probs = [-(1/2)] :=
  (log_prob_zero_init_and_threading dInfer tmN hTenth []
    (initial_loop_vars dInfer tmN hTenth) rfl).2.2.2

/-- C10: at every inference step the driver carries the
log-probabilities and lengths returned by the feedback policy into the
next iteration unchanged: they are exactly the `sample_symbols` return
components, with no `beam_ids` gather or any other transformation
applied (decoder.py lines 303-315). -/
theorem log_probs_lengths_threaded_unmodified
    {S PP I W F L : Type} [Inhabited S] [Inhabited I]
    (d : DecoderM S PP I W F) (tm : Modality I F L) (helper : Feedback L)
    (ps : List PP) (v : LoopVars S I W) (hm : d.mode = ModeKeys.INFER) :
    ((body_traininfer d tm helper ps v).log_probs =
      (infer_status_at d tm helper ps v).log_probs) ∧
    ((body_traininfer d tm helper ps v).lengths =
      (infer_status_at d tm helper ps v).lengths) ∧
    ((infer_status_at d tm helper ps v).log_probs =
      (helper.sample_symbols
        (tm.top (d.merge_top_features
          (d.step (d.preprocessing_fn v.time v.inputs) v.decoder_states ps).1))
        v.log_probs v.finished v.lengths v.time).2.2.1) ∧
    ((infer_status_at d tm helper ps v).lengths =
      (helper.sample_symbols
        (tm.top (d.merge_top_features
          (d.step (d.preprocessing_fn v.time v.inputs) v.decoder_states ps).1))
        v.log_probs v.finished v.lengths v.time).2.2.2) := by
  rcases body_infer_fields d tm helper ps v hm with ⟨hlp, hle, _, _, _⟩
  exact ⟨hlp, hle, rfl, rfl⟩

/-- Witness for C10: concrete two-lane swap scenario; the carried
log-probabilities are the policy's returned ones even though the states
were reordered. -/
theorem log_probs_lengths_threaded_unmodified_witness :
    (body_traininfer dInfer tmN hSwap [] vTwoLane).log_probs =
      (infer_status_at dInfer tmN hSwap [] vTwoLane).log_probs :=
  (log_probs_lengths_threaded_unmodified dInfer tmN hSwap [] vTwoLane rfl).1

theorem dynamic_decode_eq_finalize {S PP I W F L : Type}
    [Inhabited S] [Inhabited I]
    (d : DecoderM S PP I W F) (tm : Modality I F L) (helper : Feedback L)
    (fuel : Nat) (res : LoopVars S I W)
    (hrun : run_loop d tm helper (prepared d helper).2 fuel
      (initial_loop_vars d tm helper) = some res) :
    dynamic_decode d tm helper fuel = finalize_decode d res := by
  unfold dynamic_decode
  rw [hrun]

/-- C3: the loop terminates exactly when the finished mask first becomes
all-true (the while condition, decoder.py line 338, is the negation of
`reduce_all finished` and nothing else); if the mask never becomes
all-true the loop never terminates regardless of the fuel of the eager
model (the driver imposes no internal cap); and with the spec-modelled
teacher-forcing feedback the mask becomes all-true exactly when the
driving target sequence of length `tgt_len` is exhausted. -/
theorem loop_termination_iff_all_finished
    {S PP I W F L : Type} [Inhabited S] [Inhabited I]
    (d : DecoderM S PP I W F) (tm : Modality I F L) (helper : Feedback L)
    (ps : List PP) (d2 : DecoderM S PP I W F) (tm2 : Modality I F Nat)
    (ps2 : List PP) (tgt_len n : Nat)
    (h1 : 1 ≤ tgt_len) (h2 : 0 < n) (hmode : d2.mode = ModeKeys.TRAIN) :
    (∀ fuel (v w : LoopVars S I W), run_loop d tm helper ps fuel v = some w ↔
      ∃ N, N ≤ fuel ∧ (∀ t, t < N → loop_cond (loop_iter d tm helper ps t v) = true) ∧
        loop_cond (loop_iter d tm helper ps N v) = false ∧
        w = loop_iter d tm helper ps N v) ∧
    (∀ v : LoopVars S I W, loop_cond v = ! v.finished.all (fun b => b)) ∧
    (∀ v : LoopVars S I W,
      (∀ k, loop_cond (loop_iter d tm helper ps k v) = true) →
      ∀ fuel, run_loop d tm helper ps fuel v = none) ∧
    (∀ t, loop_cond (loop_iter d2 tm2 (train_feedback tgt_len n) ps2 t
        (initial_loop_vars d2 tm2 (train_feedback tgt_len n))) =
      decide (t < tgt_len)) := by
  refine ⟨fun fuel v w => run_loop_eq_some_iff d tm helper ps fuel v w,
    fun v => rfl,
    fun v h fuel => run_loop_none_of_never d tm helper ps v h fuel, ?_⟩
  intro t
  have hfin := train_feedback_finished d2 tm2 ps2 tgt_len n h1 t
  show (! (loop_iter d2 tm2 (train_feedback tgt_len n) ps2 t
      (initial_loop_vars d2 tm2 (train_feedback tgt_len n))).finished.all
      (fun b => b)) = decide (t < tgt_len)
  rw [hfin, List.all_replicate]
  have hn : ¬ n = 0 := by omega
  rw [if_neg hn]
  show (! decide (tgt_len ≤ t)) = decide (t < tgt_len)
  by_cases h : tgt_len ≤ t
  · rw [decide_eq_true h, decide_eq_false (show ¬ t < tgt_len by omega)]
    rfl
  · rw [decide_eq_false h, decide_eq_true (show t < tgt_len by omega)]
    rfl

/-- Witness for C3: with the teacher-forcing feedback over a length-2
target and one lane, the loop condition is false at step 2 (the driving
sequence is exhausted). -/
theorem loop_termination_iff_all_finished_witness :
    loop_cond (loop_iter dTrain tmN (train_feedback 2 1) [] 2
      (initial_loop_vars dTrain tmN (train_feedback 2 1))) = false := by
  have h := (loop_termination_iff_all_finished dTrain tmN hEager []
    dTrain tmN [] 2 1 (by omega) (by omega) rfl).2.2.2 2
  simpa using h

theorem empty_batch_finalize_aux {S PP I W F L : Type}
    [Inhabited S] [Inhabited I]
    (d : DecoderM S PP I W F) (tm : Modality I F L) (helper : Feedback L) :
    finalize_decode d (initial_loop_vars d tm helper : LoopVars S I W) =
      some ((remover_retained d.mode d.output_dtype_fields
          d.output_ignore_fields).map (fun f => (f, ([] : List W))),
        if d.mode = ModeKeys.INFER then some ⟨[], [], [], []⟩ else none) := by
  have houts : map_option (fun p => (ta_stack p.2).map (fun l => (p.1, l)))
      (initial_loop_vars d tm helper : LoopVars S I W).outputs_ta =
      some ((remover_retained d.mode d.output_dtype_fields
        d.output_ignore_fields).map (fun f => (f, ([] : List W)))) := by
    have h := map_option_eq_some
      (fun p => (ta_stack p.2).map (fun l => (p.1, l)))
      (fun p : String × TArr W => (p.1, ([] : List W)))
      ((remover_retained d.mode d.output_dtype_fields
        d.output_ignore_fields).map (fun f => (f, (ta_empty : TArr W))))
      (by
        intro p hp
        rcases List.mem_map.mp hp with ⟨f, _, hf⟩
        rw [← hf]
        rfl)
    rw [show (initial_loop_vars d tm helper : LoopVars S I W).outputs_ta =
      (remover_retained d.mode d.output_dtype_fields
        d.output_ignore_fields).map (fun f => (f, (ta_empty : TArr W))) from rfl]
    rw [h, List.map_map]
    rfl
  unfold finalize_decode
  rw [houts, Option.some_bind]
  by_cases hm : d.mode = ModeKeys.INFER
  · rw [if_pos hm, if_pos hm]
    rfl
  · rw [if_neg hm, if_neg hm]

theorem empty_batch_dynamic_decode {S PP I W F L : Type}
    [Inhabited S] [Inhabited I]
    (d : DecoderM S PP I W F) (tm : Modality I F L) (helper : Feedback L)
    (h0 : helper.init_symbols.1 = []) (fuel : Nat) :
    dynamic_decode d tm helper fuel =
      some ((remover_retained d.mode d.output_dtype_fields
          d.output_ignore_fields).map (fun f => (f, ([] : List W))),
        if d.mode = ModeKeys.INFER then some ⟨[], [], [], []⟩ else none) := by
  have hcond : loop_cond (initial_loop_vars d tm helper : LoopVars S I W) = false := by
    show (! (helper.init_symbols.1).all (fun b => b)) = false
    rw [h0]
    rfl
  have hrun : run_loop d tm helper (prepared d helper).2 fuel
      (initial_loop_vars d tm helper : LoopVars S I W) =
      some (initial_loop_vars d tm helper) := by
    cases fuel with
    | zero => exact run_loop_zero_neg d tm helper _ _ hcond
    | succ fuel => exact run_loop_succ_neg d tm helper _ fuel _ hcond
  rw [dynamic_decode_eq_finalize d tm helper fuel _ hrun]
  exact empty_batch_finalize_aux d tm helper

/-- C6: a decode over zero lanes (empty initial finished mask) evaluates
the loop condition to false immediately, runs zero loop iterations, never
invokes the transition `step` function, and returns empty buffers. -/
theorem empty_batch_returns_empty_buffers
    {S PP I W F L : Type} [Inhabited S] [Inhabited I]
    (d : DecoderM S PP I W F) (tm : Modality I F L) (helper : Feedback L)
    (h0 : helper.init_symbols.1 = []) :
    (loop_cond (initial_loop_vars d tm helper : LoopVars S I W) = false) ∧
    (∀ ps fuel, run_loop d tm helper ps fuel
      (initial_loop_vars d tm helper : LoopVars S I W) =
      some (initial_loop_vars d tm helper)) ∧
    (∀ fuel, dynamic_decode d tm helper fuel =
      some ((remover_retained d.mode d.output_dtype_fields
          d.output_ignore_fields).map (fun f => (f, ([] : List W))),
        if d.mode = ModeKeys.INFER then some ⟨[], [], [], []⟩ else none)) ∧
    (∀ stepfn fuel,
      dynamic_decode { d with step := stepfn } tm helper fuel =
        dynamic_decode d tm helper fuel) := by
  have hcond : loop_cond (initial_loop_vars d tm helper : LoopVars S I W) = false := by
    show (! (helper.init_symbols.1).all (fun b => b)) = false
    rw [h0]
    rfl
  have hrun : ∀ (ps : List PP) fuel, run_loop d tm helper ps fuel
      (initial_loop_vars d tm helper : LoopVars S I W) =
      some (initial_loop_vars d tm helper) := by
    intro ps fuel
    cases fuel with
    | zero => exact run_loop_zero_neg d tm helper ps _ hcond
    | succ fuel => exact run_loop_succ_neg d tm helper ps fuel _ hcond
  refine ⟨hcond, hrun, empty_batch_dynamic_decode d tm helper h0, ?_⟩
  intro stepfn fuel
  rw [empty_batch_dynamic_decode { d with step := stepfn } tm helper h0 fuel,
    empty_batch_dynamic_decode d tm helper h0 fuel]

/-- C4: if the loop terminates after `N` executed iterations, every
retained output buffer holds exactly one write per time index `0..N-1`
(so stacking succeeds) and the finalized sequence has exactly `N`
entries ordered by time, entry `t` being the schema-filtered output of
step `t` (decoder.py lines 293-294 and 344-345). -/
theorem output_buffers_written_once_and_stacked
    {S PP I W F L : Type} [Inhabited S] [Inhabited I] [Inhabited W]
    (d : DecoderM S PP I W F) (tm : Modality I F L) (helper : Feedback L)
    (fuel : Nat) (w : LoopVars S I W)
    (Hs : ∀ inputs states,
      ((d.step inputs states (prepared d helper).2).1).map Prod.fst =
        d.output_dtype_fields)
    (hrun : run_loop d tm helper (prepared d helper).2 fuel
      (initial_loop_vars d tm helper) = some w) :
    ∃ N, N ≤ fuel ∧
      w = loop_iter d tm helper (prepared d helper).2 N
        (initial_loop_vars d tm helper) ∧
      w.outputs_ta =
        (List.range (remover_retained d.mode d.output_dtype_fields
            d.output_ignore_fields).length).map
          (fun j => ((remover_retained d.mode d.output_dtype_fields
              d.output_ignore_fields).getD j "",
            ta_log (field_value_at d tm helper (prepared d helper).2
              (initial_loop_vars d tm helper) j) N)) ∧
      (∀ j, j < (remover_retained d.mode d.output_dtype_fields
          d.output_ignore_fields).length →
        ta_stack ((w.outputs_ta.getD j ("", ta_empty)).2) =
          some ((List.range N).map (field_value_at d tm helper
            (prepared d helper).2 (initial_loop_vars d tm helper) j))) := by
  rcases (run_loop_eq_some_iff d tm helper (prepared d helper).2 fuel
    (initial_loop_vars d tm helper) w).mp hrun with ⟨N, hN, _, _, hw⟩
  have hout := loop_iter_outputs_ta d tm helper (prepared d helper).2
    (initial_loop_vars d tm helper) Hs rfl rfl N
  refine ⟨N, hN, hw, by rw [hw]; exact hout, ?_⟩
  intro j hj
  rw [hw, hout, getD_map_range _ _ _ j hj]
  exact ta_stack_log _ N

/-- Witness for C4: the force-finish-at-3 policy runs 4 steps and the
single retained buffer stacks into 4 entries. -/
theorem output_buffers_written_once_and_stacked_witness :
    ∃ N, N ≤ 10 ∧
      loop_iter dTrain tmN hForce3 (prepared dTrain hForce3).2 4
          (initial_loop_vars dTrain tmN hForce3) =
        loop_iter dTrain tmN hForce3 (prepared dTrain hForce3).2 N
          (initial_loop_vars dTrain tmN hForce3) ∧
      (loop_iter dTrain tmN hForce3 (prepared dTrain hForce3).2 4
          (initial_loop_vars dTrain tmN hForce3)).outputs_ta =
        (List.range (remover_retained dTrain.mode dTrain.output_dtype_fields
            dTrain.output_ignore_fields).length).map
          (fun j => ((remover_retained dTrain.mode dTrain.output_dtype_fields
              dTrain.output_ignore_fields).getD j "",
            ta_log (field_value_at dTrain tmN hForce3 (prepared dTrain hForce3).2
              (initial_loop_vars dTrain tmN hForce3) j) N)) ∧
      (∀ j, j < (remover_retained dTrain.mode dTrain.output_dtype_fields
          dTrain.output_ignore_fields).length →
        ta_stack (((loop_iter dTrain tmN hForce3 (prepared dTrain hForce3).2 4
            (initial_loop_vars dTrain tmN hForce3)).outputs_ta.getD j
          ("", ta_empty)).2) =
          some ((List.range N).map (field_value_at dTrain tmN hForce3
            (prepared dTrain hForce3).2 (initial_loop_vars dTrain tmN hForce3) j))) :=
  output_buffers_written_once_and_stacked dTrain tmN hForce3 10
    (loop_iter dTrain tmN hForce3 (prepared dTrain hForce3).2 4
      (initial_loop_vars dTrain tmN hForce3))
    (fun _ _ => rfl) (by decide)

/-- C5 counterexample: the claim quantifies over every policy whose
initial mask is not all-true and whose time-3 `next_symbols` call
reports all lanes finished regardless of content.  `hEager` is such a
policy (its `next_symbols` is the constant all-finished function), yet
the decode terminates after exactly 1 executed step, not 4. -/
theorem force_finish_time3_counterexample :
    hEager.init_symbols.1.all (fun b => b) = false ∧
    hEager.next_symbols = (fun _ _ => ([true], [0])) ∧
    run_loop dTrain tmN hEager [] 10 (initial_loop_vars dTrain tmN hEager) =
      some (loop_iter dTrain tmN hEager [] 1 (initial_loop_vars dTrain tmN hEager)) ∧
    (loop_iter dTrain tmN hEager [] 1 (initial_loop_vars dTrain tmN hEager)).time = 1 ∧
    (loop_iter dTrain tmN hEager [] 1 (initial_loop_vars dTrain tmN hEager)).time ≠ 4 := by
  refine ⟨rfl, rfl, by decide, rfl, by decide⟩

/-- C5 (amended): for a feedback policy whose initial mask is not
all-true, whose time-3 `next_symbols` call reports all lanes finished
regardless of content, and whose accumulated mask is still not all-true
after steps 0..2, the decode terminates after exactly 4 executed steps
(times 0..3) and every finalized buffer has length 4. -/
theorem force_finish_time3_terminates_after_four
    {S PP I W F L : Type} [Inhabited S] [Inhabited I] [Inhabited W]
    (d : DecoderM S PP I W F) (tm : Modality I F L) (helper : Feedback L)
    (hinit : (initial_loop_vars d tm helper : LoopVars S I W).finished.all
      (fun b => b) = false)
    (h3 : ∀ s, ((helper.next_symbols 3 s).1).all (fun b => b) = true)
    (hmid : ∀ t, t < 3 →
      (loop_iter d tm helper (prepared d helper).2 (t + 1)
        (initial_loop_vars d tm helper)).finished.all (fun b => b) = false)
    (Hs : ∀ inputs states,
      ((d.step inputs states (prepared d helper).2).1).map Prod.fst =
        d.output_dtype_fields) :
    (∀ t, t < 4 → loop_cond (loop_iter d tm helper (prepared d helper).2 t
      (initial_loop_vars d tm helper)) = true) ∧
    loop_cond (loop_iter d tm helper (prepared d helper).2 4
      (initial_loop_vars d tm helper)) = false ∧
    (∀ fuel, 4 ≤ fuel → run_loop d tm helper (prepared d helper).2 fuel
      (initial_loop_vars d tm helper) =
      some (loop_iter d tm helper (prepared d helper).2 4
        (initial_loop_vars d tm helper))) ∧
    (∀ j, j < (remover_retained d.mode d.output_dtype_fields
        d.output_ignore_fields).length →
      (ta_stack (((loop_iter d tm helper (prepared d helper).2 4
          (initial_loop_vars d tm helper)).outputs_ta.getD j
        ("", ta_empty)).2)).map List.length = some 4) ∧
    (d.mode = ModeKeys.INFER →
      (ta_stack (loop_iter d tm helper (prepared d helper).2 4
        (initial_loop_vars d tm helper)).infer_status_ta.log_probs).map
          List.length = some 4 ∧
      (ta_stack (loop_iter d tm helper (prepared d helper).2 4
        (initial_loop_vars d tm helper)).infer_status_ta.predicted_ids).map
          List.length = some 4 ∧
      (ta_stack (loop_iter d tm helper (prepared d helper).2 4
        (initial_loop_vars d tm helper)).infer_status_ta.beam_ids).map
          List.length = some 4 ∧
      (ta_stack (loop_iter d tm helper (prepared d helper).2 4
        (initial_loop_vars d tm helper)).infer_status_ta.lengths).map
          List.length = some 4) := by
  have hcondt : ∀ t, t < 4 → loop_cond (loop_iter d tm helper (prepared d helper).2 t
      (initial_loop_vars d tm helper)) = true := by
    intro t ht
    interval_cases t
    · show (! (initial_loop_vars d tm helper : LoopVars S I W).finished.all
        (fun b => b)) = true
      rw [hinit]
      rfl
    · show (! (loop_iter d tm helper (prepared d helper).2 (0 + 1)
        (initial_loop_vars d tm helper)).finished.all (fun b => b)) = true
      rw [hmid 0 (by omega)]
      rfl
    · show (! (loop_iter d tm helper (prepared d helper).2 (1 + 1)
        (initial_loop_vars d tm helper)).finished.all (fun b => b)) = true
      rw [hmid 1 (by omega)]
      rfl
    · show (! (loop_iter d tm helper (prepared d helper).2 (2 + 1)
        (initial_loop_vars d tm helper)).finished.all (fun b => b)) = true
      rw [hmid 2 (by omega)]
      rfl
  have h4 : (loop_iter d tm helper (prepared d helper).2 4
      (initial_loop_vars d tm helper)).finished.all (fun b => b) = true := by
    rcases body_finished_eq d tm helper (prepared d helper).2
      (loop_iter d tm helper (prepared d helper).2 3
        (initial_loop_vars d tm helper)) with ⟨s, hs⟩
    have ht3 : (loop_iter d tm helper (prepared d helper).2 3
        (initial_loop_vars d tm helper)).time = 3 := by
      rw [loop_iter_time]
      rfl
    rw [loop_iter_succ, hs, ht3]
    exact zipWith_or_all_left _ _ (h3 s)
  have hcond4 : loop_cond (loop_iter d tm helper (prepared d helper).2 4
      (initial_loop_vars d tm helper)) = false := by
    show (! (loop_iter d tm helper (prepared d helper).2 4
      (initial_loop_vars d tm helper)).finished.all (fun b => b)) = false
    rw [h4]
    rfl
  have hout := loop_iter_outputs_ta d tm helper (prepared d helper).2
    (initial_loop_vars d tm helper) Hs rfl rfl 4
  refine ⟨hcondt, hcond4, ?_, ?_, ?_⟩
  · intro fuel hf
    exact (run_loop_eq_some_iff d tm helper (prepared d helper).2 fuel
      (initial_loop_vars d tm helper) _).mpr
      ⟨4, by omega, hcondt, hcond4, rfl⟩
  · intro j hj
    rw [hout, getD_map_range _ _ _ j hj]
    rw [ta_stack_log]
    simp
  · intro hm
    have hta := loop_iter_infer_ta d tm helper (prepared d helper).2
      (initial_loop_vars d tm helper) hm rfl rfl 4
    rw [hta]
    refine ⟨?_, ?_, ?_, ?_⟩ <;> (rw [ta_stack_log]; simp)

/-- Witness for C5 (amended): the policy that force-finishes exactly at
time 3 makes the loop run exactly 4 steps. -/
theorem force_finish_time3_terminates_after_four_witness :
    run_loop dTrain tmN hForce3 (prepared dTrain hForce3).2 4
      (initial_loop_vars dTrain tmN hForce3) =
      some (loop_iter dTrain tmN hForce3 (prepared dTrain hForce3).2 4
        (initial_loop_vars dTrain tmN hForce3)) := by
  have h := force_finish_time3_terminates_after_four dTrain tmN hForce3
    rfl (fun _ => rfl)
    (by intro t ht; interval_cases t <;> decide)
    (fun _ _ => rfl)
  exact h.2.2.1 4 (by omega)

/-- Witness for C6: the zero-lane feedback yields empty buffers in one
condition evaluation. -/
theorem empty_batch_returns_empty_buffers_witness :
    dynamic_decode dTrain tmN hEmpty 3 = some ([("out", [])], none) :=
  (empty_batch_returns_empty_buffers dTrain tmN hEmpty rfl).2.2.1 3

/-- C7 counterexample: at an inference step with parent indices
`[1, 0]`, the postprocessing hook receives the beam-reordered inputs
`[20, 10]`, not the previous step's post-processed input `[10, 20]` as
the claim states; `dPost`'s hook returns its first argument, making the
received value observable in the carried inputs. -/
theorem postprocessing_hook_args_counterexample :
    (body_traininfer dPost tmN hSwap [] vTwoLane).inputs = [20, 10] ∧
    dPost.postprocessing_fn (some vTwoLane.inputs)
      (tmN.targets_bottom (hSwap.next_symbols vTwoLane.time (some [0, 0])).2
        (vTwoLane.time + 1)) = [10, 20] ∧
    (body_traininfer dPost tmN hSwap [] vTwoLane).inputs ≠
      dPost.postprocessing_fn (some vTwoLane.inputs)
        (tmN.targets_bottom (hSwap.next_symbols vTwoLane.time (some [0, 0])).2
          (vTwoLane.time + 1)) := by
  refine ⟨rfl, rfl, by decide⟩

/-- C7 (amended): at every step the postprocessing hook is invoked with
the current step's preprocessed input — additionally reordered by the
step's parent beam indices at inference — and the raw newly embedded
input for the next time index; its result becomes the carried input for
the next transition call.  Outside inference and under the default
identity preprocessing hook this first argument coincides with the
previous step's post-processed input. -/
theorem postprocessing_hook_receives_reordered_inputs
    {S PP I W F L : Type} [Inhabited S] [Inhabited I]
    (d : DecoderM S PP I W F) (tm : Modality I F L) (helper : Feedback L)
    (ps : List PP) (v : LoopVars S I W) :
    (¬ d.mode = ModeKeys.INFER →
      (body_traininfer d tm helper ps v).inputs =
        d.postprocessing_fn (some (d.preprocessing_fn v.time v.inputs))
          (tm.targets_bottom ((helper.next_symbols v.time none).2) (v.time + 1))) ∧
    (d.mode = ModeKeys.INFER →
      (body_traininfer d tm helper ps v).inputs =
        d.postprocessing_fn
          (some (gather_states (d.preprocessing_fn v.time v.inputs)
            (infer_status_at d tm helper ps v).beam_ids))
          (tm.targets_bottom ((helper.next_symbols v.time
            (some (infer_status_at d tm helper ps v).predicted_ids)).2)
            (v.time + 1))) := by
  constructor
  · intro hm
    exact (body_train_fields d tm helper ps v hm).2.2.2.1
  · intro hm
    exact (body_infer_fields d tm helper ps v hm).2.2.2.1

/-- Witness for C7 (amended): concrete inference step with the swap
parent indices. -/
theorem postprocessing_hook_receives_reordered_inputs_witness :
    (body_traininfer dPost tmN hSwap [] vTwoLane).inputs =
      dPost.postprocessing_fn
        (some (gather_states (dPost.preprocessing_fn vTwoLane.time vTwoLane.inputs)
          (infer_status_at dPost tmN hSwap [] vTwoLane).beam_ids))
        (tmN.targets_bottom ((hSwap.next_symbols vTwoLane.time
          (some (infer_status_at dPost tmN hSwap [] vTwoLane).predicted_ids)).2)
          (vTwoLane.time + 1)) :=
  (postprocessing_hook_receives_reordered_inputs dPost tmN hSwap [] vTwoLane).2 rfl

/-- C8: the schema filter is idempotent (filtering an already filtered
field set changes nothing), is computed once before the loop from the
declared schema and ignore-list, and the same configuration is used both
to size the initial buffers and to filter every step's record
(decoder.py lines 256-257, 272-273 and 293-294). -/
theorem schema_filter_idempotent_and_constant
    {S PP I W F L : Type} [Inhabited S] [Inhabited I]
    (d : DecoderM S PP I W F) (tm : Modality I F L) (helper : Feedback L) :
    (∀ (m : ModeKeys) (fields : List String) (ig : Option (List String)),
      remover_retained m (remover_retained m fields ig) ig =
        remover_retained m fields ig) ∧
    (∀ (m : ModeKeys) (ig : Option (List String)) (r : List (String × W)),
      (remover_apply m ig r).map Prod.fst =
        remover_retained m (r.map Prod.fst) ig) ∧
    ((initial_loop_vars d tm helper : LoopVars S I W).outputs_ta.map Prod.fst =
      remover_retained d.mode d.output_dtype_fields d.output_ignore_fields) ∧
    (∀ (ps : List PP) (v : LoopVars S I W),
      (body_traininfer d tm helper ps v).outputs_ta =
        write_outputs v.outputs_ta v.time
          (remover_apply d.mode d.output_ignore_fields
            ((d.step (d.preprocessing_fn v.time v.inputs)
              v.decoder_states ps).1))) := by
  refine ⟨?_, ?_, ?_, ?_⟩
  · intro m fields ig
    cases m <;> cases ig <;> simp [remover_retained, List.filter_filter]
  · intro m ig r
    exact remover_apply_fst m ig r
  · show ((remover_retained d.mode d.output_dtype_fields
      d.output_ignore_fields).map (fun f => (f, (ta_empty : TArr W)))).map
        Prod.fst = _
    rw [List.map_map]
    simp [Function.comp_def]
  · intro ps v
    exact body_outputs_ta d tm helper ps v

end NJUNMT
